import Mathlib

/-
Verification of the CMDI bulk-modifier engine: a shallow embedding of the
record-transformation code (src/modifiers/lb_modifiers.py, src/update_cmdi.py)
over an element-tree model, with theorems settling the specified properties.

Records are modelled as ordered element trees with namespace-qualified tags in
Clark notation (the same form lxml uses), attributes, direct text content and
ordered children. Whitespace-only pretty-printing text is not modelled, so the
reindentation step of the source is the identity on this abstraction.
-/

/-- One element of a CMDI record tree: namespace-qualified tag in Clark
notation, attribute list, direct text content, and ordered children. -/
inductive Elem : Type where
  | node (tag : String) (attrs : List (String × String)) (text : String) (children : List Elem)

namespace Elem

def tag : Elem → String
  | .node t _ _ _ => t

def attrsOf : Elem → List (String × String)
  | .node _ a _ _ => a

def text : Elem → String
  | .node _ _ x _ => x

def children : Elem → List Elem
  | .node _ _ _ cs => cs

/-- In-place child append of lxml, as a functional update. -/
def appendChild : Elem → Elem → Elem
  | .node t a x cs, c => .node t a x (cs ++ [c])

/-- Attribute lookup. -/
def attr (e : Elem) (name : String) : Option String :=
  (e.attrsOf.find? (fun p => p.1 = name)).map (fun p => p.2)

end Elem

mutual
/-- The element together with all its descendants, in document (preorder)
order: this is the order in which lxml xpath returns matches. -/
def subtree : Elem → List Elem
  | .node t a x cs => .node t a x cs :: subtreeF cs

def subtreeF : List Elem → List Elem
  | [] => []
  | c :: cs => subtree c ++ subtreeF cs
end

/-- All strict descendants of an element, in document order; the evaluation of
the descendant axis used by ".//" xpath expressions. -/
def descendants (e : Elem) : List Elem :=
  subtreeF e.children

/-- Children carrying a given tag, in document order. -/
def childrenTagged (t : String) (e : Elem) : List Elem :=
  e.children.filter (fun c => c.tag = t)

/-- Child-axis path query: all elements reached from e by following the given
chain of tags, in document order. Models xpath expressions such as
"oai:metadata/cmd:CMD/cmd:Header/cmd:MdSelfLink" relative to e. -/
def pathElems (e : Elem) : List String → List Elem
  | [] => [e]
  | t :: ts => (childrenTagged t e).flatMap (fun c => pathElems c ts)

/-- Text-node results of a child-axis path query followed by text(): lxml
yields one text node per matched element with nonempty direct text. -/
def textNodes (e : Elem) (path : List String) : List String :=
  ((pathElems e path).map Elem.text).filter (fun s => s ≠ "")

/-- Python exception outcomes of the embedded code. ValueError carries the
message built by the raising site; IndexError models out-of-range subscripts
such as matches[0] on an empty xpath result; AttributeError models method
access on None. -/
inductive PyErr : Type where
  | valueError (msg : String)
  | indexError
  | attributeError
deriving DecidableEq

/-- Lift the first element of an xpath result list, modelling matches[0]. -/
def firstOrIndexError {α : Type} : List α → Except PyErr α
  | [] => Except.error PyErr.indexError
  | a :: _ => Except.ok a

/- Python string primitives used by the source, embedded over character lists
so that all evaluation is structural. -/

/-- Split a character list at every separator character, keeping empty chunks;
the semantics of Python str.split(sep). -/
def splitPredList (p : Char → Bool) : List Char → List (List Char)
  | [] => [[]]
  | c :: rest =>
    let r := splitPredList p rest
    if p c then [] :: r
    else
      match r with
      | h :: t => (c :: h) :: t
      | [] => [[c]]

/-- Python s.split(sep) for a one-character separator. -/
def pySplit (sep : Char) (s : String) : List String :=
  (splitPredList (fun c => c = sep) s.toList).map String.mk

/-- Python s.strip(chars): drop leading and trailing characters satisfying the
predicate. -/
def pyStripChars (bad : Char → Bool) (s : String) : String :=
  String.mk (((s.toList.dropWhile bad).reverse.dropWhile bad).reverse)

/-- Python s.strip() with no arguments: strip whitespace. -/
def pyStrip (s : String) : String :=
  pyStripChars Char.isWhitespace s

/-- Python s.strip("{}"): strip leading and trailing curly braces. -/
def pyStripBraces (s : String) : String :=
  pyStripChars (fun c => c = '\x7b' || c = '\x7d') s

/-- Python s.split() with no arguments: maximal nonempty chunks between
whitespace runs. -/
def pySplitWs (s : String) : List String :=
  ((splitPredList Char.isWhitespace s.toList).map String.mk).filter (fun x => x ≠ "")

/-- A nonempty digit sequence in which single underscores may separate digits:
the body accepted by Python int() after sign and whitespace handling. -/
def pyIntTail : List Char → Bool
  | [] => true
  | '_' :: rest =>
    match rest with
    | c :: rest2 => c.isDigit && pyIntTail rest2
    | [] => false
  | c :: rest => c.isDigit && pyIntTail rest

def pyIntDigits : List Char → Bool
  | [] => false
  | c :: rest => c.isDigit && pyIntTail rest

/-- Whether Python int(s) succeeds: optional surrounding whitespace, optional
sign, then a nonempty underscore-separated digit sequence. (Non-ASCII decimal
digits, accepted by CPython, are outside the modelled alphabet.) -/
def pyIntOk (s : String) : Bool :=
  let t := (s.toList.dropWhile Char.isWhitespace).reverse.dropWhile Char.isWhitespace |>.reverse
  let core :=
    match t with
    | '+' :: rest => rest
    | '-' :: rest => rest
    | l => l
  pyIntDigits core

/-- Embedding of short_identifier_from_pid (src/update_cmdi.py): take the
substring after the last colon, require the first dash-separated field to be
"lb" and the second to parse as a Python integer, and return the whole
substring. -/
def shortIdentifierFromPid (pid : String) : Except PyErr String :=
  let identifier := (pySplit ':' pid).getLastD ""
  match pySplit '-' identifier with
  | [] => Except.error PyErr.indexError
  | p0 :: rest =>
    if p0 ≠ "lb" then
      Except.error (PyErr.valueError
        ("Unexpected PID format " ++ pid ++
          " encountered: last part does not start with \x27lb-\x27"))
    else
      match rest with
      | [] => Except.error PyErr.indexError
      | p1 :: _ =>
        if pyIntOk p1 then Except.ok identifier
        else
          Except.error (PyErr.valueError
            ("Unexpected PID format " ++ pid ++ " encountered: does not end with a number"))

/-- Following the spec wording for the short-identifier shape: the literal
prefix "lb-" followed by a nonempty run of decimal digits. Stated from the
spec, for comparison against the code behaviour. -/
def specLbIntegerShape (s : String) : Bool :=
  match s.toList with
  | 'l' :: 'b' :: '-' :: rest => rest ≠ [] && rest.all Char.isDigit
  | _ => false

/-- Claim C8, counterexample: the PID urn:nbn:fi:lb-12-34 is accepted by the
upload-step derivation and yields lb-12-34, although lb-12-34 does not match
the shape lb-<integer>; so the code does not raise on every mismatch of that
shape. -/
theorem shortIdentifierFromPid_accepts_shape_mismatch :
    shortIdentifierFromPid "urn:nbn:fi:lb-12-34" = Except.ok "lb-12-34" ∧
    specLbIntegerShape "lb-12-34" = false := by
  exact ⟨rfl, rfl⟩

/-- Claim C8 (amended): the upload step derives the short identifier as the
substring after the last colon and checks only that its first dash-separated
field is exactly "lb" and that its second dash-separated field parses as a
Python integer, raising an identifier-format ValueError when either check
fails; extra dash-separated segments after the integer are accepted without
validation. In particular urn:nbn:fi:lb-2020010100 yields lb-2020010100 and a
PID whose field directly after lb- is non-numeric raises. -/
theorem shortIdentifierFromPid_amended_spec (pid : String) :
    (∀ p1 rest, pySplit '-' ((pySplit ':' pid).getLastD "") = "lb" :: p1 :: rest →
        pyIntOk p1 = true →
        shortIdentifierFromPid pid = Except.ok ((pySplit ':' pid).getLastD "")) ∧
    (∀ p0 rest, pySplit '-' ((pySplit ':' pid).getLastD "") = p0 :: rest → p0 ≠ "lb" →
        shortIdentifierFromPid pid = Except.error (PyErr.valueError
          ("Unexpected PID format " ++ pid ++
            " encountered: last part does not start with \x27lb-\x27"))) ∧
    (∀ p1 rest, pySplit '-' ((pySplit ':' pid).getLastD "") = "lb" :: p1 :: rest →
        pyIntOk p1 = false →
        shortIdentifierFromPid pid = Except.error (PyErr.valueError
          ("Unexpected PID format " ++ pid ++ " encountered: does not end with a number"))) := by
  refine ⟨?_, ?_, ?_⟩
  · intro p1 rest h hint
    simp only [shortIdentifierFromPid, h, hint]
    simp
  · intro p0 rest h hne
    simp only [shortIdentifierFromPid, h]
    simp [hne]
  · intro p1 rest h hint
    simp only [shortIdentifierFromPid, h, hint]
    simp

/-- Witness for the amended claim C8 at concrete inputs. -/
theorem shortIdentifierFromPid_amended_spec_witness :
    shortIdentifierFromPid "urn:nbn:fi:lb-2020010100" = Except.ok "lb-2020010100" ∧
    shortIdentifierFromPid "urn:nbn:fi:lb-abc" = Except.error (PyErr.valueError
      "Unexpected PID format urn:nbn:fi:lb-abc encountered: does not end with a number") := by
  constructor
  · exact (shortIdentifierFromPid_amended_spec "urn:nbn:fi:lb-2020010100").1
      "2020010100" [] (by decide) (by decide)
  · exact (shortIdentifierFromPid_amended_spec "urn:nbn:fi:lb-abc").2.2
      "abc" [] (by decide) (by decide)

/- Namespace-qualified tags in Clark notation, as lxml renders them. -/

/-- A tag in the CMDI namespace. -/
def cmdTag (s : String) : String :=
  "\x7bhttp://www.clarin.eu/cmd/\x7d" ++ s

/-- A tag in the OAI-PMH envelope namespace. -/
def oaiTag (s : String) : String :=
  "\x7bhttp://www.openarchives.org/OAI/2.0/\x7d" ++ s

/-- The header path holding the persistent self-identifier of a record. -/
def mdSelfLinkPath : List String :=
  [oaiTag "metadata", cmdTag "CMD", cmdTag "Header", cmdTag "MdSelfLink"]

/-- lxml.etree.indent normalizes whitespace-only text for pretty printing;
whitespace is not part of this abstraction, so here it is the identity. -/
def indent (e : Elem) : Elem := e

/-- Append newChild to the first element of the list, at any depth, reached by
threading the remaining path; first complete match in document order wins. -/
def firstSome {α : Type} (f : α → Option α) : List α → Option (List α)
  | [] => none
  | a :: as =>
    match f a with
    | some a' => some (a' :: as)
    | none => (firstSome f as).map (fun l => a :: l)

/-- Append newChild inside the first element (in document order) reached from e
by the child-axis path; none when the path has no match. Models the source
pattern matches = xpath(path); matches[0].append(newChild). -/
def appendAtPath (newChild : Elem) : List String → Elem → Option Elem
  | [], e => some (e.appendChild newChild)
  | tg :: rest, e =>
    (firstSome (fun c => if c.tag = tg then appendAtPath newChild rest c else none)
        e.children).map (fun cs => Elem.node e.tag e.attrsOf e.text cs)

mutual
/-- Append newChild inside the first strict descendant (in document order)
satisfying the predicate; none when there is no such descendant. Models the
source pattern matches = xpath(".//tag"); matches[0].append(newChild). -/
def appendAtFirstDesc (p : Elem → Bool) (newChild : Elem) : Elem → Option Elem
  | .node t a x cs => (appendAtFirstDescF p newChild cs).map (Elem.node t a x)

def appendAtFirstDescF (p : Elem → Bool) (newChild : Elem) : List Elem → Option (List Elem)
  | [] => none
  | c :: cs =>
    if p c then some (c.appendChild newChild :: cs)
    else
      match appendAtFirstDesc p newChild c with
      | some c2 => some (c2 :: cs)
      | none => (appendAtFirstDescF p newChild cs).map (fun l => c :: l)
end

/-- Embedding of AddDistributionRightsHolderModifier.modify
(src/modifiers/lb_modifiers.py). The record root is the OAI record envelope;
the conflict check evaluates its two xpath expressions relative to that root,
exactly as the source writes them. -/
def addDistributionRightsHolderModify (modifiedIdentifiers : List String)
    (distributionRightsHolder : Elem) (r : Elem) : Except PyErr (Elem × Bool) :=
  match firstOrIndexError (textNodes r mdSelfLinkPath) with
  | Except.error e => Except.error e
  | Except.ok identifier =>
    if ! modifiedIdentifiers.contains identifier then Except.ok (r, false)
    else if !(pathElems r [cmdTag "distributionInfo", cmdTag "licenceInfo",
          cmdTag "distributionRightsHolderPerson"]).isEmpty
        || !(pathElems r [cmdTag "distributionInfo", cmdTag "licenceInfo",
          cmdTag "distributionRightsHolderOrganization"]).isEmpty then
      Except.error (PyErr.valueError "At least one distribution rightsholder already present")
    else
      match appendAtPath distributionRightsHolder
          [oaiTag "metadata", cmdTag "CMD", cmdTag "Components", cmdTag "resourceInfo",
            cmdTag "distributionInfo", cmdTag "licenceInfo"] r with
      | some r2 => Except.ok (indent r2, true)
      | none => Except.error PyErr.indexError

/-- The element parsed from the template string of
UhelDistributionRightsHolderModifier; the template carries no xmlns attribute,
so all of its tags are unqualified. -/
def uhelDistributionRightsHolder : Elem :=
  .node "distributionRightsHolderOrganization" [] "" [
    .node "role" [] "distributionRightsHolder" [],
    .node "organizationInfo" [] "" [
      .node "organizationName" [("xml:lang", "en")] "University of Helsinki" [],
      .node "organizationShortName" [("xml:lang", "en")] "UHEL" [],
      .node "communicationInfo" [] "" [
        .node "email" [] "fin-clarin@helsinki.fi" []]]]

/-- Embedding of UhelDistributionRightsHolderModifier.modify. -/
def uhelModify (affectedIdentifiers : List String) : Elem → Except PyErr (Elem × Bool) :=
  addDistributionRightsHolderModify affectedIdentifiers uhelDistributionRightsHolder

/-- A minimal harvested record: OAI envelope, header with the given
self-identifier, and the given resourceInfo children. -/
def sampleRecord (ident : String) (resourceChildren : List Elem) : Elem :=
  .node (oaiTag "record") [] "" [
    .node (oaiTag "header") [] "" [],
    .node (oaiTag "metadata") [] "" [
      .node (cmdTag "CMD") [] "" [
        .node (cmdTag "Header") [] "" [
          .node (cmdTag "MdSelfLink") [] ident []],
        .node (cmdTag "Components") [] "" [
          .node (cmdTag "resourceInfo") [] "" resourceChildren]]]]

/-- The flag returned by a successful modifier invocation. -/
def resultFlag : Except PyErr (Elem × Bool) → Option Bool
  | Except.ok (_, b) => some b
  | Except.error _ => none

/-- How many elements of the resulting record carry the given tag. -/
def resultCountTag (t : String) : Except PyErr (Elem × Bool) → Nat
  | Except.ok (r, _) => ((subtree r).filter (fun e => e.tag = t)).length
  | Except.error _ => 0

/-- Run the UHEL modifier again on the record produced by a previous run. -/
def uhelModifyAgain (ids : List String) : Except PyErr (Elem × Bool) → Except PyErr (Elem × Bool)
  | Except.ok (r, _) => uhelModify ids r
  | Except.error e => Except.error e

/-- A listed record whose licence-info subtree is still empty. -/
def drhRecordEmpty : Elem :=
  sampleRecord "urn:nbn:fi:lb-111" [
    .node (cmdTag "distributionInfo") [] "" [
      .node (cmdTag "licenceInfo") [] "" []]]

/-- A listed record that already carries a namespace-qualified distribution
rights holder organization under its licence-info subtree. -/
def drhRecordOccupied : Elem :=
  sampleRecord "urn:nbn:fi:lb-111" [
    .node (cmdTag "distributionInfo") [] "" [
      .node (cmdTag "licenceInfo") [] "" [
        .node (cmdTag "distributionRightsHolderOrganization") [] "" [
          .node (cmdTag "role") [] "distributionRightsHolder" []]]]]

/- Person/organization rewriting (PersonToOrganizationModifier). -/

/-- The xpath match predicate of PersonToOrganizationModifier: a personInfo
element whose surname child carries exactly the configured text. -/
def personSurnameMatch (sn : String) (e : Elem) : Bool :=
  e.tag = cmdTag "personInfo" &&
    e.children.any (fun c => c.tag = cmdTag "surname" && c.text = sn)

/-- Whether e is the structural parent of a matching personInfo. -/
def hasMatchingPerson (sn : String) (e : Elem) : Bool :=
  e.children.any (personSurnameMatch sn)

/-- The replacement built in the licensorPerson branch: a namespace-qualified
licensorOrganization wrapper with role licensor carrying the configured
organizationInfo element. -/
def newLicensorOrganization (org : Elem) : Elem :=
  .node (cmdTag "licensorOrganization") [] "" [
    .node (cmdTag "role") [] "licensor" [], org]

/-- The replacement built in the distributionRightsHolderPerson branch. -/
def newDistributionRightsHolderOrganization (org : Elem) : Elem :=
  .node (cmdTag "distributionRightsHolderOrganization") [] "" [
    .node (cmdTag "role") [] "distributionRightsHolder" [], org]

/-- The message of the fail-closed branch for an unrecognized parent tag. -/
def unexpectedPersonMsg (t : String) : String :=
  "Unexpected person element of type " ++ t ++ " encountered"

mutual
/-- Transform the subtree rooted at one element: its children are examined as
potential parents of matching persons, exactly as
PersonToOrganizationModifier.modify branches on parent.tag. -/
def p2oElem (sn : String) (org : Elem) : Elem → Except PyErr (Elem × Bool)
  | .node t a x cs =>
    match p2oChildren sn org cs with
    | Except.error e => Except.error e
    | Except.ok (cs2, b) => Except.ok (Elem.node t a x cs2, b)

/-- Process a sibling list: a member holding a matching personInfo child is
the parent of a match, and its tag selects skip, replacement or failure; all
matches are collected up front by the source, so matches inside a replaced
parent are still processed against the detached subtree (scanDetached). -/
def p2oChildren (sn : String) (org : Elem) : List Elem → Except PyErr (List Elem × Bool)
  | [] => Except.ok ([], false)
  | .node t a x ccs :: cs =>
    if hasMatchingPerson sn (Elem.node t a x ccs) then
      if t = cmdTag "contactPerson" || t = cmdTag "metadataCreator" then
        match p2oElem sn org (Elem.node t a x ccs) with
        | Except.error e => Except.error e
        | Except.ok (c2, b1) =>
          match p2oChildren sn org cs with
          | Except.error e => Except.error e
          | Except.ok (cs2, b2) => Except.ok (c2 :: cs2, b1 || b2)
      else if t = cmdTag "distributionRightsHolderPerson" then
        match scanDetached sn org 0 ccs with
        | Except.error e => Except.error e
        | Except.ok _ =>
          match p2oChildren sn org cs with
          | Except.error e => Except.error e
          | Except.ok (cs2, _) =>
            Except.ok (newDistributionRightsHolderOrganization org :: cs2, true)
      else if t = cmdTag "licensorPerson" then
        match scanDetached sn org 0 ccs with
        | Except.error e => Except.error e
        | Except.ok _ =>
          match p2oChildren sn org cs with
          | Except.error e => Except.error e
          | Except.ok (cs2, _) =>
            Except.ok (newLicensorOrganization org :: cs2, true)
      else Except.error (PyErr.valueError (unexpectedPersonMsg t))
    else
      match p2oElem sn org (Elem.node t a x ccs) with
      | Except.error e => Except.error e
      | Except.ok (c2, b1) =>
        match p2oChildren sn org cs with
        | Except.error e => Except.error e
        | Except.ok (cs2, b2) => Except.ok (c2 :: cs2, b1 || b2)

/-- Error effects of the matches inside a subtree whose root was replaced and
detached: mutations there are invisible in the result, a second direct
matching child of the detached root dereferences a None parent
(AttributeError), and deeper matches still branch on their own parents. -/
def scanDetached (sn : String) (org : Elem) : Nat → List Elem → Except PyErr Unit
  | _, [] => Except.ok ()
  | seen, .node t a x ccs :: cs =>
    if personSurnameMatch sn (Elem.node t a x ccs) then
      if seen = 0 then
        match scanStep sn org (Elem.node t a x ccs) with
        | Except.error e => Except.error e
        | Except.ok _ => scanDetached sn org 1 cs
      else Except.error PyErr.attributeError
    else
      match scanStep sn org (Elem.node t a x ccs) with
      | Except.error e => Except.error e
      | Except.ok _ => scanDetached sn org seen cs

/-- Error effects of one detached element viewed as a potential parent of
matches: the branch structure of p2oChildren with the mutations discarded. -/
def scanStep (sn : String) (org : Elem) : Elem → Except PyErr Unit
  | .node t a x ccs =>
    if hasMatchingPerson sn (Elem.node t a x ccs) then
      if t = cmdTag "contactPerson" || t = cmdTag "metadataCreator" then
        match p2oChildren sn org ccs with
        | Except.error e => Except.error e
        | Except.ok _ => Except.ok ()
      else if t = cmdTag "distributionRightsHolderPerson" ||
          t = cmdTag "licensorPerson" then
        scanDetached sn org 0 ccs
      else Except.error (PyErr.valueError (unexpectedPersonMsg t))
    else
      match p2oChildren sn org ccs with
      | Except.error e => Except.error e
      | Except.ok _ => Except.ok ()
end

/-- Embedding of PersonToOrganizationModifier.modify. The root of the record
is the parent of a match only in degenerate records; as in the source, such a
root is skipped, cannot be replaced (the None grandparent of the root raises
AttributeError), or is reported by tag as unexpected. -/
def personToOrganizationModify (sn : String) (org : Elem) (r : Elem) :
    Except PyErr (Elem × Bool) :=
  match
    (if hasMatchingPerson sn r then
      if r.tag = cmdTag "contactPerson" || r.tag = cmdTag "metadataCreator" then
        p2oElem sn org r
      else if r.tag = cmdTag "distributionRightsHolderPerson" ||
          r.tag = cmdTag "licensorPerson" then
        Except.error PyErr.attributeError
      else Except.error (PyErr.valueError (unexpectedPersonMsg r.tag))
    else p2oElem sn org r) with
  | Except.error e => Except.error e
  | Except.ok (r2, b) => Except.ok (indent r2, b)

/-- The organizationInfo element parsed from the FIN-CLARIN template of
FinclarinPersonToOrganizationModifier; that template string carries no xmlns,
so its tags are unqualified. -/
def finclarinOrganizationInfo : Elem :=
  .node "organizationInfo" [] "" [
    .node "organizationName" [("xml:lang", "en")] "FIN-CLARIN" [],
    .node "organizationShortName" [("xml:lang", "en")] "FIN-CLARIN" [],
    .node "departmentName" [("xml:lang", "en")] "University of Helsinki" [],
    .node "communicationInfo" [] "" [
      .node "email" [] "fin-clarin@helsinki.fi" [],
      .node "url" [] "http://www.helsinki.fi/fin-clarin" [],
      .node "address" [] "PO Box 24 (Unioninkatu 40)" [],
      .node "zipCode" [] "00014" [],
      .node "city" [] "University of Helsinki" [],
      .node "country" [] "Finland" []]]

/-- Embedding of FinclarinPersonToOrganizationModifier.modify. -/
def finclarinPersonToOrganizationModify : Elem → Except PyErr (Elem × Bool) :=
  personToOrganizationModify "FIN-CLARIN" finclarinOrganizationInfo

/-- Claim C1 (code bug): on a listed record with no pre-existing rights
holder, the first invocation inserts and returns true, but invoking the
modifier again on the modified record does not raise the documented conflict
error: it inserts a second rights holder and returns true. Likewise a listed
record already holding a namespace-qualified rights holder is extended without
error. The conflict check addresses cmd:distributionInfo directly under the
record root, while records keep it under
oai:metadata/cmd:CMD/cmd:Components/cmd:resourceInfo, so it never fires. -/
theorem addDistributionRightsHolder_conflict_check_never_fires :
    resultFlag (uhelModify ["urn:nbn:fi:lb-111"] drhRecordEmpty) = some true ∧
    resultCountTag "distributionRightsHolderOrganization"
      (uhelModify ["urn:nbn:fi:lb-111"] drhRecordEmpty) = 1 ∧
    resultFlag (uhelModifyAgain ["urn:nbn:fi:lb-111"]
      (uhelModify ["urn:nbn:fi:lb-111"] drhRecordEmpty)) = some true ∧
    resultCountTag "distributionRightsHolderOrganization"
      (uhelModifyAgain ["urn:nbn:fi:lb-111"]
        (uhelModify ["urn:nbn:fi:lb-111"] drhRecordEmpty)) = 2 ∧
    resultFlag (uhelModify ["urn:nbn:fi:lb-111"] drhRecordOccupied) = some true ∧
    resultCountTag (cmdTag "distributionRightsHolderOrganization")
      (uhelModify ["urn:nbn:fi:lb-111"] drhRecordOccupied) = 1 ∧
    resultCountTag "distributionRightsHolderOrganization"
      (uhelModify ["urn:nbn:fi:lb-111"] drhRecordOccupied) = 1 := by
  exact ⟨rfl, rfl, rfl, rfl, rfl, rfl, rfl⟩

/-- Parents of matches that the rewriting modifier leaves untouched. -/
def skipParentPred (sn : String) (q : Elem) : Bool :=
  !(hasMatchingPerson sn q) ||
    (q.tag = cmdTag "contactPerson" || q.tag = cmdTag "metadataCreator")

/-- Every parent of a matching personInfo anywhere in the record is a
contactPerson or metadataCreator wrapper. -/
def allParentsSkippable (sn : String) (r : Elem) : Bool :=
  (subtree r).all (skipParentPred sn)

mutual
theorem p2oElem_skip (sn : String) (org : Elem) (e : Elem)
    (h : (subtreeF e.children).all (skipParentPred sn) = true) :
    p2oElem sn org e = Except.ok (e, false) := by
  cases e with
  | node t a x cs =>
    have hrec := p2oChildren_skip sn org cs (by simpa [Elem.children] using h)
    simp [p2oElem, hrec]

theorem p2oChildren_skip (sn : String) (org : Elem) (cs : List Elem)
    (h : (subtreeF cs).all (skipParentPred sn) = true) :
    p2oChildren sn org cs = Except.ok (cs, false) := by
  cases cs with
  | nil => rfl
  | cons c cs' =>
    cases c with
    | node t a x ccs =>
      rw [subtreeF, List.all_append, Bool.and_eq_true] at h
      obtain ⟨h1, h2⟩ := h
      rw [subtree, List.all_cons, Bool.and_eq_true] at h1
      obtain ⟨hp, h1x⟩ := h1
      have hrec1 := p2oElem_skip sn org (Elem.node t a x ccs)
        (by simpa [Elem.children] using h1x)
      have hrec2 := p2oChildren_skip sn org cs' h2
      by_cases hm : hasMatchingPerson sn (Elem.node t a x ccs) = true
      · have htag : (t = cmdTag "contactPerson" || t = cmdTag "metadataCreator") = true := by
          unfold skipParentPred at hp
          rw [hm] at hp
          simpa [Elem.tag] using hp
        rw [Bool.or_eq_true] at htag
        rcases htag with h3 | h3
        · simp [p2oChildren, hm, h3, hrec1, hrec2]
        · simp [p2oChildren, hm, h3, hrec1, hrec2]
      · rw [Bool.not_eq_true] at hm
        simp [p2oChildren, hm, hrec1, hrec2]
end

/-- Claim C5 (confirmed): when every personInfo matching the configured
surname sits under a contactPerson or metadataCreator parent, the rewriting
modifier leaves the record unchanged and returns false. -/
theorem personToOrganization_contact_unchanged (sn : String) (org : Elem) (r : Elem)
    (h : allParentsSkippable sn r = true) :
    personToOrganizationModify sn org r = Except.ok (r, false) := by
  cases r with
  | node t a x cs =>
    unfold allParentsSkippable at h
    rw [subtree, List.all_cons, Bool.and_eq_true] at h
    obtain ⟨hr, h2⟩ := h
    have hrec := p2oElem_skip sn org (Elem.node t a x cs)
      (by simpa [Elem.children] using h2)
    by_cases hm : hasMatchingPerson sn (Elem.node t a x cs) = true
    · have htag : (t = cmdTag "contactPerson" || t = cmdTag "metadataCreator") = true := by
        unfold skipParentPred at hr
        rw [hm] at hr
        simpa [Elem.tag] using hr
      rw [Bool.or_eq_true] at htag
      rcases htag with h3 | h3
      · simp [personToOrganizationModify, hm, h3, hrec, indent, Elem.tag]
      · simp [personToOrganizationModify, hm, h3, hrec, indent, Elem.tag]
    · rw [Bool.not_eq_true] at hm
      simp [personToOrganizationModify, hm, hrec, indent]

/-- Scenario B of the spec: the target surname under a contactPerson parent. -/
def scenarioContactRecord : Elem :=
  sampleRecord "urn:nbn:fi:lb-2" [
    .node (cmdTag "contactPerson") [] "" [
      .node (cmdTag "role") [] "contactPerson" [],
      .node (cmdTag "personInfo") [] "" [
        .node (cmdTag "surname") [] "FIN-CLARIN" []]]]

/-- Witness for claim C5 on Scenario B. -/
theorem personToOrganization_contact_unchanged_witness :
    personToOrganizationModify "FIN-CLARIN" finclarinOrganizationInfo scenarioContactRecord =
      Except.ok (scenarioContactRecord, false) :=
  personToOrganization_contact_unchanged "FIN-CLARIN" finclarinOrganizationInfo
    scenarioContactRecord (by decide)

/-- e is a licensorPerson wrapper holding a matching personInfo child. -/
def licensorParentMatch (sn : String) (e : Elem) : Bool :=
  e.tag = cmdTag "licensorPerson" && hasMatchingPerson sn e

/-- The element is not the parent of a match, or nothing strictly inside it is
the parent of a match. -/
def nestFreePred (sn : String) (q : Elem) : Bool :=
  !(hasMatchingPerson sn q) ||
    (subtreeF q.children).all (fun q2 => !(hasMatchingPerson sn q2))

/-- No parent of a match lies strictly inside another parent of a match. -/
def noNestedParentMatch (sn : String) (r : Elem) : Bool :=
  (subtree r).all (nestFreePred sn)

theorem licensorParentMatch_hasMatching {sn : String} {q : Elem}
    (h : licensorParentMatch sn q = true) : hasMatchingPerson sn q = true := by
  unfold licensorParentMatch at h
  rw [Bool.and_eq_true] at h
  exact h.2

theorem licensorParentMatch_tag {sn : String} {q : Elem}
    (h : licensorParentMatch sn q = true) : q.tag = cmdTag "licensorPerson" := by
  unfold licensorParentMatch at h
  rw [Bool.and_eq_true] at h
  simpa using h.1

/-- From an inner parent-of-match and inner nest-freeness of a parent of a
match, derive a contradiction. -/
theorem no_inner_parent_match {sn : String} {ccs : List Elem}
    (hall : ((subtreeF ccs).all (fun q2 => !(hasMatchingPerson sn q2))) = true)
    (hany : (subtreeF ccs).any (licensorParentMatch sn) = true) : False := by
  rw [List.any_eq_true] at hany
  obtain ⟨q, hq, hlic⟩ := hany
  rw [List.all_eq_true] at hall
  have := hall q hq
  rw [licensorParentMatch_hasMatching hlic] at this
  simp at this

theorem self_mem_subtree (e : Elem) : e ∈ subtree e := by
  cases e with
  | node t a x cs =>
    rw [subtree]
    exact List.mem_cons_self _ _

theorem mem_subtreeF_left {q c : Elem} {cs : List Elem}
    (h : q ∈ subtree c) : q ∈ subtreeF (c :: cs) := by
  rw [subtreeF]
  exact List.mem_append_left _ h

theorem mem_subtreeF_right {q c : Elem} {cs : List Elem}
    (h : q ∈ subtreeF cs) : q ∈ subtreeF (c :: cs) := by
  rw [subtreeF]
  exact List.mem_append_right _ h

theorem mem_subtree_inner {q : Elem} {t : String} {a : List (String × String)}
    {x : String} {ccs : List Elem}
    (h : q ∈ subtreeF ccs) : q ∈ subtree (Elem.node t a x ccs) := by
  rw [subtree]
  exact List.mem_cons_of_mem _ h

mutual
theorem p2oElem_licensor_found (sn : String) (org : Elem) (e e2 : Elem) (b : Bool)
    (hok : p2oElem sn org e = Except.ok (e2, b))
    (hfound : (subtreeF e.children).any (licensorParentMatch sn) = true)
    (hsep : (subtreeF e.children).all (nestFreePred sn) = true) :
    b = true ∧ newLicensorOrganization org ∈ subtree e2 := by
  cases e with
  | node t a x cs =>
    simp only [p2oElem] at hok
    cases hlist : p2oChildren sn org cs with
    | error e1 => rw [hlist] at hok; simp at hok
    | ok p =>
      obtain ⟨cs2, b2⟩ := p
      rw [hlist] at hok
      dsimp only at hok
      rw [Except.ok.injEq, Prod.mk.injEq] at hok
      obtain ⟨he2, hb⟩ := hok
      have hres := p2oChildren_licensor_found sn org cs cs2 b2 hlist
        (by simpa [Elem.children] using hfound) (by simpa [Elem.children] using hsep)
      obtain ⟨hb2, hmem⟩ := hres
      subst he2
      constructor
      · rw [← hb]; exact hb2
      · rw [subtree]
        exact List.mem_cons_of_mem _ hmem

theorem p2oChildren_licensor_found (sn : String) (org : Elem)
    (cs cs2 : List Elem) (b : Bool)
    (hok : p2oChildren sn org cs = Except.ok (cs2, b))
    (hfound : (subtreeF cs).any (licensorParentMatch sn) = true)
    (hsep : (subtreeF cs).all (nestFreePred sn) = true) :
    b = true ∧ newLicensorOrganization org ∈ subtreeF cs2 := by
  cases cs with
  | nil => simp [subtreeF] at hfound
  | cons c cs' =>
    cases c with
    | node t a x ccs =>
      rw [subtreeF, List.any_append, Bool.or_eq_true] at hfound
      rw [subtreeF, List.all_append, Bool.and_eq_true] at hsep
      obtain ⟨hsepC, hsepR⟩ := hsep
      rw [subtree, List.all_cons, Bool.and_eq_true] at hsepC
      obtain ⟨hnfC, hsepInner⟩ := hsepC
      simp only [p2oChildren] at hok
      by_cases hm : hasMatchingPerson sn (Elem.node t a x ccs) = true
      · rw [if_pos hm] at hok
        by_cases ht1 : (decide (t = cmdTag "contactPerson") ||
            decide (t = cmdTag "metadataCreator")) = true
        · -- contact or metadataCreator parent: kept, recursion continues
          rw [if_pos ht1] at hok
          cases hA : p2oElem sn org (Elem.node t a x ccs) with
          | error e1 => rw [hA] at hok; simp at hok
          | ok pA =>
            obtain ⟨c2, b1⟩ := pA
            rw [hA] at hok
            dsimp only at hok
            cases hB : p2oChildren sn org cs' with
            | error e1 => rw [hB] at hok; simp at hok
            | ok pB =>
              obtain ⟨cs2x, b2⟩ := pB
              rw [hB] at hok
              dsimp only at hok
              rw [Except.ok.injEq, Prod.mk.injEq] at hok
              obtain ⟨hcs2, hb⟩ := hok
              rcases hfound with hfc | hfr
              · rw [subtree, List.any_cons, Bool.or_eq_true] at hfc
                rcases hfc with hlic | hinner
                · have htl := licensorParentMatch_tag hlic
                  simp only [Elem.tag] at htl
                  rw [htl] at ht1
                  exact absurd ht1 (by decide)
                · have hres := p2oElem_licensor_found sn org (Elem.node t a x ccs) c2 b1 hA
                    (by simpa [Elem.children] using hinner)
                    (by simpa [Elem.children] using hsepInner)
                  obtain ⟨hb1, hmem⟩ := hres
                  constructor
                  · rw [← hb, hb1, Bool.true_or]
                  · rw [← hcs2, subtreeF]
                    exact List.mem_append_left _ hmem
              · have hres := p2oChildren_licensor_found sn org cs' cs2x b2 hB hfr hsepR
                obtain ⟨hb2, hmem⟩ := hres
                constructor
                · rw [← hb, hb2, Bool.or_true]
                · rw [← hcs2, subtreeF]
                  exact List.mem_append_right _ hmem
        · rw [if_neg ht1] at hok
          by_cases ht2 : t = cmdTag "distributionRightsHolderPerson"
          · -- replaced by a distributionRightsHolderOrganization
            rw [if_pos ht2] at hok
            cases hS : scanDetached sn org 0 ccs with
            | error e1 => rw [hS] at hok; simp at hok
            | ok u =>
              rw [hS] at hok
              dsimp only at hok
              cases hB : p2oChildren sn org cs' with
              | error e1 => rw [hB] at hok; simp at hok
              | ok pB =>
                obtain ⟨cs2x, b2⟩ := pB
                rw [hB] at hok
                dsimp only at hok
                rw [Except.ok.injEq, Prod.mk.injEq] at hok
                obtain ⟨hcs2, hb⟩ := hok
                refine ⟨hb.symm, ?_⟩
                rcases hfound with hfc | hfr
                · rw [subtree, List.any_cons, Bool.or_eq_true] at hfc
                  rcases hfc with hlic | hinner
                  · have htl := licensorParentMatch_tag hlic
                    simp only [Elem.tag] at htl
                    rw [htl] at ht2
                    exact absurd ht2 (by decide)
                  · exfalso
                    unfold nestFreePred at hnfC
                    rw [hm] at hnfC
                    simp only [Bool.not_true, Bool.false_or] at hnfC
                    exact no_inner_parent_match
                      (by simpa [Elem.children] using hnfC) hinner
                · have hres := p2oChildren_licensor_found sn org cs' cs2x b2 hB hfr hsepR
                  obtain ⟨_, hmem⟩ := hres
                  rw [← hcs2, subtreeF]
                  exact List.mem_append_right _ hmem
          · rw [if_neg ht2] at hok
            by_cases ht3 : t = cmdTag "licensorPerson"
            · -- replaced by the licensorOrganization itself
              rw [if_pos ht3] at hok
              cases hS : scanDetached sn org 0 ccs with
              | error e1 => rw [hS] at hok; simp at hok
              | ok u =>
                rw [hS] at hok
                dsimp only at hok
                cases hB : p2oChildren sn org cs' with
                | error e1 => rw [hB] at hok; simp at hok
                | ok pB =>
                  obtain ⟨cs2x, b2⟩ := pB
                  rw [hB] at hok
                  dsimp only at hok
                  rw [Except.ok.injEq, Prod.mk.injEq] at hok
                  obtain ⟨hcs2, hb⟩ := hok
                  refine ⟨hb.symm, ?_⟩
                  rw [← hcs2, subtreeF]
                  exact List.mem_append_left _ (self_mem_subtree _)
            · -- unrecognized parent: the call fails, contradicting hok
              rw [if_neg ht3] at hok
              simp at hok
      · rw [if_neg hm] at hok
        cases hA : p2oElem sn org (Elem.node t a x ccs) with
        | error e1 => rw [hA] at hok; simp at hok
        | ok pA =>
          obtain ⟨c2, b1⟩ := pA
          rw [hA] at hok
          dsimp only at hok
          cases hB : p2oChildren sn org cs' with
          | error e1 => rw [hB] at hok; simp at hok
          | ok pB =>
            obtain ⟨cs2x, b2⟩ := pB
            rw [hB] at hok
            dsimp only at hok
            rw [Except.ok.injEq, Prod.mk.injEq] at hok
            obtain ⟨hcs2, hb⟩ := hok
            rcases hfound with hfc | hfr
            · rw [subtree, List.any_cons, Bool.or_eq_true] at hfc
              rcases hfc with hlic | hinner
              · have hpm := licensorParentMatch_hasMatching hlic
                exact absurd hpm hm
              · have hres := p2oElem_licensor_found sn org (Elem.node t a x ccs) c2 b1 hA
                  (by simpa [Elem.children] using hinner)
                  (by simpa [Elem.children] using hsepInner)
                obtain ⟨hb1, hmem⟩ := hres
                constructor
                · rw [← hb, hb1, Bool.true_or]
                · rw [← hcs2, subtreeF]
                  exact List.mem_append_left _ hmem
            · have hres := p2oChildren_licensor_found sn org cs' cs2x b2 hB hfr hsepR
              obtain ⟨hb2, hmem⟩ := hres
              constructor
              · rw [← hb, hb2, Bool.or_true]
              · rw [← hcs2, subtreeF]
                exact List.mem_append_right _ hmem
end

/-- Claim C4 (confirmed): whenever the rewriting modifier succeeds on a record
that holds, under no other parent-of-match, a licensorPerson parent wrapping a
personInfo with the configured surname, it returns true and the result
contains the newly constructed licensorOrganization substructure (role
licensor, configured OrganizationInfo) in place of that parent. -/
theorem personToOrganization_rewrites_licensor (sn : String) (org : Elem)
    (r r2 : Elem) (b : Bool)
    (hok : personToOrganizationModify sn org r = Except.ok (r2, b))
    (hfound : (descendants r).any (licensorParentMatch sn) = true)
    (hsep : noNestedParentMatch sn r = true) :
    b = true ∧ newLicensorOrganization org ∈ subtree r2 := by
  cases r with
  | node t a x cs =>
    unfold noNestedParentMatch at hsep
    rw [subtree, List.all_cons, Bool.and_eq_true] at hsep
    obtain ⟨hnfR, hsepInner⟩ := hsep
    unfold personToOrganizationModify at hok
    simp only [Elem.tag] at hok
    by_cases hm : hasMatchingPerson sn (Elem.node t a x cs) = true
    · rw [if_pos hm] at hok
      by_cases ht1 : (decide (t = cmdTag "contactPerson") ||
          decide (t = cmdTag "metadataCreator")) = true
      · rw [if_pos ht1] at hok
        cases hA : p2oElem sn org (Elem.node t a x cs) with
        | error e1 => rw [hA] at hok; simp at hok
        | ok pA =>
          obtain ⟨r2x, bx⟩ := pA
          rw [hA] at hok
          dsimp only at hok
          simp only [indent] at hok
          rw [Except.ok.injEq, Prod.mk.injEq] at hok
          obtain ⟨hr2, hb⟩ := hok
          have hres := p2oElem_licensor_found sn org (Elem.node t a x cs) r2x bx hA
            (by simpa [Elem.children, descendants] using hfound)
            (by simpa [Elem.children] using hsepInner)
          obtain ⟨hb1, hmem⟩ := hres
          subst hr2
          exact ⟨hb ▸ hb1, hmem⟩
      · rw [if_neg ht1] at hok
        by_cases ht2 : (decide (t = cmdTag "distributionRightsHolderPerson") ||
            decide (t = cmdTag "licensorPerson")) = true
        · rw [if_pos ht2] at hok
          dsimp only at hok
          simp at hok
        · rw [if_neg ht2] at hok
          dsimp only at hok
          simp at hok
    · rw [if_neg hm] at hok
      cases hA : p2oElem sn org (Elem.node t a x cs) with
      | error e1 => rw [hA] at hok; simp at hok
      | ok pA =>
        obtain ⟨r2x, bx⟩ := pA
        rw [hA] at hok
        dsimp only at hok
        simp only [indent] at hok
        rw [Except.ok.injEq, Prod.mk.injEq] at hok
        obtain ⟨hr2, hb⟩ := hok
        have hres := p2oElem_licensor_found sn org (Elem.node t a x cs) r2x bx hA
          (by simpa [Elem.children, descendants] using hfound)
          (by simpa [Elem.children] using hsepInner)
        obtain ⟨hb1, hmem⟩ := hres
        subst hr2
        exact ⟨hb ▸ hb1, hmem⟩

/-- Scenario A of the spec: the target surname under a licensorPerson parent. -/
def scenarioLicensorRecord : Elem :=
  sampleRecord "urn:nbn:fi:lb-1" [
    .node (cmdTag "distributionInfo") [] "" [
      .node (cmdTag "licenceInfo") [] "" [
        .node (cmdTag "licensorPerson") [] "" [
          .node (cmdTag "role") [] "licensor" [],
          .node (cmdTag "personInfo") [] "" [
            .node (cmdTag "surname") [] "FIN-CLARIN" []]]]]]

/-- Scenario A after rewriting: the licensorPerson wrapper replaced by the
constructed licensorOrganization. -/
def scenarioLicensorRewritten : Elem :=
  sampleRecord "urn:nbn:fi:lb-1" [
    .node (cmdTag "distributionInfo") [] "" [
      .node (cmdTag "licenceInfo") [] "" [
        newLicensorOrganization finclarinOrganizationInfo]]]

/-- Witness for claim C4 on Scenario A. -/
theorem personToOrganization_rewrites_licensor_witness :
    true = true ∧ newLicensorOrganization finclarinOrganizationInfo ∈
      subtree scenarioLicensorRewritten :=
  personToOrganization_rewrites_licensor "FIN-CLARIN" finclarinOrganizationInfo
    scenarioLicensorRecord scenarioLicensorRewritten true rfl (by decide) (by decide)

/-- The four parent tags the rewriting modifier has a rule for. -/
def recognizedParentTag (t : String) : Bool :=
  t = cmdTag "contactPerson" || t = cmdTag "metadataCreator" ||
    t = cmdTag "licensorPerson" || t = cmdTag "distributionRightsHolderPerson"

/-- e is the parent of a match in a context the modifier has no rule for. -/
def unrecognizedParentMatch (sn : String) (e : Elem) : Bool :=
  hasMatchingPerson sn e && !(recognizedParentTag e.tag)

/-- Each element holds at most one matching personInfo child. -/
def atMostOneMatchPred (sn : String) (q : Elem) : Bool :=
  decide ((q.children.filter (personSurnameMatch sn)).length ≤ 1)

/-- Every element of the record has at most one matching personInfo child. -/
def atMostOneMatchEach (sn : String) (r : Elem) : Bool :=
  (subtree r).all (atMostOneMatchPred sn)

theorem unrecognizedParentMatch_hasMatching {sn : String} {q : Elem}
    (h : unrecognizedParentMatch sn q = true) : hasMatchingPerson sn q = true := by
  unfold unrecognizedParentMatch at h
  rw [Bool.and_eq_true] at h
  exact h.1

/-- From an inner unrecognized parent-of-match and inner nest-freeness of a
parent of a match, derive a contradiction. -/
theorem no_inner_unrecognized {sn : String} {ccs : List Elem}
    (hall : ((subtreeF ccs).all (fun q2 => !(hasMatchingPerson sn q2))) = true)
    (hany : (subtreeF ccs).any (unrecognizedParentMatch sn) = true) : False := by
  rw [List.any_eq_true] at hany
  obtain ⟨q, hq, hbad⟩ := hany
  rw [List.all_eq_true] at hall
  have := hall q hq
  rw [unrecognizedParentMatch_hasMatching hbad] at this
  simp at this

/-- A detached element none of whose elements is the parent of a match is
scanned without any effect. -/
theorem scanStep_no_parent_match (sn : String) (org : Elem) (c : Elem)
    (h : (subtree c).all (fun q => !(hasMatchingPerson sn q)) = true) :
    scanStep sn org c = Except.ok () := by
  cases c with
  | node t a x ccs =>
    rw [subtree, List.all_cons, Bool.and_eq_true] at h
    obtain ⟨hc, hinner⟩ := h
    have hm : hasMatchingPerson sn (Elem.node t a x ccs) = false := by simpa using hc
    have hsk : p2oChildren sn org ccs = Except.ok (ccs, false) := by
      apply p2oChildren_skip
      rw [List.all_eq_true]
      intro q hq
      rw [List.all_eq_true] at hinner
      unfold skipParentPred
      rw [hinner q (by simpa [Elem.children] using hq)]
      rfl
    have hmn : ¬(hasMatchingPerson sn (Elem.node t a x ccs) = true) := by
      rw [hm]; simp
    simp only [scanStep]
    rw [if_neg hmn, hsk]

/-- Scanning the children of a detached replaced parent succeeds when no inner
element is the parent of a match and the direct matches fit the remaining
allowance of the seen counter. -/
theorem scanDetached_no_parent_match (sn : String) (org : Elem) :
    ∀ (cs : List Elem) (seen : Nat),
    (subtreeF cs).all (fun q => !(hasMatchingPerson sn q)) = true →
    seen + (cs.filter (personSurnameMatch sn)).length ≤ 1 →
    scanDetached sn org seen cs = Except.ok () := by
  intro cs
  induction cs with
  | nil => intro seen h hc; rfl
  | cons c cs' ih =>
    intro seen h hc
    cases c with
    | node t a x ccs =>
      rw [subtreeF, List.all_append, Bool.and_eq_true] at h
      obtain ⟨hC, hR⟩ := h
      have hstep := scanStep_no_parent_match sn org (Elem.node t a x ccs) hC
      simp only [scanDetached]
      by_cases hmt : personSurnameMatch sn (Elem.node t a x ccs) = true
      · rw [if_pos hmt]
        rw [List.filter_cons] at hc
        rw [hmt] at hc
        simp only [if_true, List.length_cons] at hc
        have hseen : seen = 0 := by omega
        rw [if_pos hseen, hstep]
        exact ih 1 hR (by omega)
      · rw [if_neg hmt]
        rw [hstep]
        have hmf : personSurnameMatch sn (Elem.node t a x ccs) = false := by
          revert hmt; cases personSurnameMatch sn (Elem.node t a x ccs) <;> simp
        rw [List.filter_cons, hmf] at hc
        simp only [Bool.false_eq_true, if_false] at hc
        exact ih seen hR hc

mutual
theorem p2oElem_no_unrecognized (sn : String) (org : Elem) (e : Elem)
    (hno : (subtreeF e.children).any (unrecognizedParentMatch sn) = false)
    (hcnt : (subtreeF e.children).all (atMostOneMatchPred sn) = true)
    (hsep : (subtreeF e.children).all (nestFreePred sn) = true) :
    ∃ p, p2oElem sn org e = Except.ok p := by
  cases e with
  | node t a x cs =>
    obtain ⟨⟨cs2, b2⟩, hp⟩ := p2oChildren_no_unrecognized sn org cs
      (by simpa [Elem.children] using hno) (by simpa [Elem.children] using hcnt)
      (by simpa [Elem.children] using hsep)
    refine ⟨(Elem.node t a x cs2, b2), ?_⟩
    simp only [p2oElem]
    rw [hp]

theorem p2oChildren_no_unrecognized (sn : String) (org : Elem) (cs : List Elem)
    (hno : (subtreeF cs).any (unrecognizedParentMatch sn) = false)
    (hcnt : (subtreeF cs).all (atMostOneMatchPred sn) = true)
    (hsep : (subtreeF cs).all (nestFreePred sn) = true) :
    ∃ p, p2oChildren sn org cs = Except.ok p := by
  cases cs with
  | nil => exact ⟨([], false), rfl⟩
  | cons c cs' =>
    cases c with
    | node t a x ccs =>
      rw [subtreeF, List.any_append] at hno
      simp only [Bool.or_eq_false_iff] at hno
      obtain ⟨hnoC, hnoR⟩ := hno
      rw [subtree, List.any_cons] at hnoC
      simp only [Bool.or_eq_false_iff] at hnoC
      obtain ⟨hnoSelf, hnoInner⟩ := hnoC
      rw [subtreeF, List.all_append, Bool.and_eq_true] at hcnt
      obtain ⟨hcntC, hcntR⟩ := hcnt
      rw [subtree, List.all_cons, Bool.and_eq_true] at hcntC
      obtain ⟨hcntSelf, hcntInner⟩ := hcntC
      rw [subtreeF, List.all_append, Bool.and_eq_true] at hsep
      obtain ⟨hsepC, hsepR⟩ := hsep
      rw [subtree, List.all_cons, Bool.and_eq_true] at hsepC
      obtain ⟨hnfC, hsepInner⟩ := hsepC
      by_cases hm : hasMatchingPerson sn (Elem.node t a x ccs) = true
      · by_cases ht1 : (decide (t = cmdTag "contactPerson") ||
            decide (t = cmdTag "metadataCreator")) = true
        · obtain ⟨⟨c2, b1⟩, hA⟩ := p2oElem_no_unrecognized sn org (Elem.node t a x ccs)
            (by simpa [Elem.children] using hnoInner)
            (by simpa [Elem.children] using hcntInner)
            (by simpa [Elem.children] using hsepInner)
          obtain ⟨⟨cs2, b2⟩, hB⟩ := p2oChildren_no_unrecognized sn org cs' hnoR hcntR hsepR
          refine ⟨(c2 :: cs2, b1 || b2), ?_⟩
          simp only [p2oChildren]
          rw [if_pos hm, if_pos ht1, hA]
          dsimp only
          rw [hB]
        · have hinnerNoPM : (subtreeF ccs).all (fun q => !(hasMatchingPerson sn q)) = true := by
            unfold nestFreePred at hnfC
            rw [hm] at hnfC
            simpa [Elem.children] using hnfC
          have hcount : (ccs.filter (personSurnameMatch sn)).length ≤ 1 := by
            unfold atMostOneMatchPred at hcntSelf
            simpa [Elem.children] using hcntSelf
          have hscan := scanDetached_no_parent_match sn org ccs 0 hinnerNoPM
            (by simpa using hcount)
          obtain ⟨⟨cs2, b2⟩, hB⟩ := p2oChildren_no_unrecognized sn org cs' hnoR hcntR hsepR
          by_cases ht2 : t = cmdTag "distributionRightsHolderPerson"
          · refine ⟨(newDistributionRightsHolderOrganization org :: cs2, true), ?_⟩
            simp only [p2oChildren]
            rw [if_pos hm, if_neg ht1, if_pos ht2, hscan]
            dsimp only
            rw [hB]
          · by_cases ht3 : t = cmdTag "licensorPerson"
            · refine ⟨(newLicensorOrganization org :: cs2, true), ?_⟩
              simp only [p2oChildren]
              rw [if_pos hm, if_neg ht1, if_neg ht2, if_pos ht3, hscan]
              dsimp only
              rw [hB]
            · exfalso
              have hd1 : (decide (t = cmdTag "contactPerson") ||
                  decide (t = cmdTag "metadataCreator")) = false := by
                revert ht1
                cases decide (t = cmdTag "contactPerson") || decide (t = cmdTag "metadataCreator") <;> simp
              simp only [Bool.or_eq_false_iff] at hd1
              unfold unrecognizedParentMatch recognizedParentTag at hnoSelf
              rw [hm] at hnoSelf
              simp only [Elem.tag, hd1.1, hd1.2, decide_eq_false ht2,
                decide_eq_false ht3, Bool.or_self, Bool.or_false, Bool.false_or,
                Bool.not_false, Bool.true_and] at hnoSelf
              simp at hnoSelf
      · obtain ⟨⟨c2, b1⟩, hA⟩ := p2oElem_no_unrecognized sn org (Elem.node t a x ccs)
          (by simpa [Elem.children] using hnoInner)
          (by simpa [Elem.children] using hcntInner)
          (by simpa [Elem.children] using hsepInner)
        obtain ⟨⟨cs2, b2⟩, hB⟩ := p2oChildren_no_unrecognized sn org cs' hnoR hcntR hsepR
        refine ⟨(c2 :: cs2, b1 || b2), ?_⟩
        simp only [p2oChildren]
        rw [if_neg hm, hA]
        dsimp only
        rw [hB]
end

mutual
theorem p2oElem_unrecognized_fails (sn : String) (org : Elem) (e : Elem)
    (hbad : (subtreeF e.children).any (unrecognizedParentMatch sn) = true)
    (hcnt : (subtreeF e.children).all (atMostOneMatchPred sn) = true)
    (hsep : (subtreeF e.children).all (nestFreePred sn) = true) :
    ∃ q, q ∈ subtreeF e.children ∧ unrecognizedParentMatch sn q = true ∧
      p2oElem sn org e = Except.error (PyErr.valueError (unexpectedPersonMsg q.tag)) := by
  cases e with
  | node t a x cs =>
    obtain ⟨q, hqmem, hqbad, herr⟩ := p2oChildren_unrecognized_fails sn org cs
      (by simpa [Elem.children] using hbad) (by simpa [Elem.children] using hcnt)
      (by simpa [Elem.children] using hsep)
    refine ⟨q, by simpa [Elem.children] using hqmem, hqbad, ?_⟩
    simp only [p2oElem]
    rw [herr]

theorem p2oChildren_unrecognized_fails (sn : String) (org : Elem) (cs : List Elem)
    (hbad : (subtreeF cs).any (unrecognizedParentMatch sn) = true)
    (hcnt : (subtreeF cs).all (atMostOneMatchPred sn) = true)
    (hsep : (subtreeF cs).all (nestFreePred sn) = true) :
    ∃ q, q ∈ subtreeF cs ∧ unrecognizedParentMatch sn q = true ∧
      p2oChildren sn org cs = Except.error (PyErr.valueError (unexpectedPersonMsg q.tag)) := by
  cases cs with
  | nil => simp [subtreeF] at hbad
  | cons c cs' =>
    cases c with
    | node t a x ccs =>
      rw [subtreeF, List.all_append, Bool.and_eq_true] at hcnt
      obtain ⟨hcntC, hcntR⟩ := hcnt
      rw [subtree, List.all_cons, Bool.and_eq_true] at hcntC
      obtain ⟨hcntSelf, hcntInner⟩ := hcntC
      rw [subtreeF, List.all_append, Bool.and_eq_true] at hsep
      obtain ⟨hsepC, hsepR⟩ := hsep
      rw [subtree, List.all_cons, Bool.and_eq_true] at hsepC
      obtain ⟨hnfC, hsepInner⟩ := hsepC
      by_cases hself : unrecognizedParentMatch sn (Elem.node t a x ccs) = true
      · -- the head itself is an unrecognized parent of a match
        have hm := unrecognizedParentMatch_hasMatching hself
        have hrecf : recognizedParentTag t = false := by
          unfold unrecognizedParentMatch at hself
          rw [Bool.and_eq_true] at hself
          simpa [Elem.tag] using hself.2
        unfold recognizedParentTag at hrecf
        simp only [Bool.or_eq_false_iff] at hrecf
        obtain ⟨⟨⟨hd1, hd2⟩, hd3⟩, hd4⟩ := hrecf
        have ht1n : ¬((decide (t = cmdTag "contactPerson") ||
            decide (t = cmdTag "metadataCreator")) = true) := by
          rw [hd1, hd2]; simp
        have ht2n : ¬(t = cmdTag "distributionRightsHolderPerson") :=
          of_decide_eq_false hd4
        have ht3n : ¬(t = cmdTag "licensorPerson") := of_decide_eq_false hd3
        refine ⟨Elem.node t a x ccs,
          mem_subtreeF_left (self_mem_subtree _), hself, ?_⟩
        simp only [p2oChildren]
        rw [if_pos hm, if_neg ht1n, if_neg ht2n, if_neg ht3n]
        rfl
      · by_cases hbc2 : (subtreeF ccs).any (unrecognizedParentMatch sn) = true
        · -- an unrecognized parent strictly inside the head
          by_cases hm : hasMatchingPerson sn (Elem.node t a x ccs) = true
          · have hrect : recognizedParentTag t = true := by
              rw [Bool.not_eq_true] at hself
              unfold unrecognizedParentMatch at hself
              rw [hm] at hself
              simpa [Elem.tag] using hself
            by_cases ht1 : (decide (t = cmdTag "contactPerson") ||
                decide (t = cmdTag "metadataCreator")) = true
            · obtain ⟨q, hqmem, hqbad, herrA⟩ :=
                p2oElem_unrecognized_fails sn org (Elem.node t a x ccs)
                  (by simpa [Elem.children] using hbc2)
                  (by simpa [Elem.children] using hcntInner)
                  (by simpa [Elem.children] using hsepInner)
              refine ⟨q, mem_subtreeF_left
                (mem_subtree_inner (by simpa [Elem.children] using hqmem)), hqbad, ?_⟩
              simp only [p2oChildren]
              rw [if_pos hm, if_pos ht1, herrA]
            · -- a replaceable parent cannot hold an inner parent of a match
              exfalso
              unfold nestFreePred at hnfC
              rw [hm] at hnfC
              simp only [Bool.not_true, Bool.false_or] at hnfC
              exact no_inner_unrecognized (by simpa [Elem.children] using hnfC) hbc2
          · obtain ⟨q, hqmem, hqbad, herrA⟩ :=
              p2oElem_unrecognized_fails sn org (Elem.node t a x ccs)
                (by simpa [Elem.children] using hbc2)
                (by simpa [Elem.children] using hcntInner)
                (by simpa [Elem.children] using hsepInner)
            refine ⟨q, mem_subtreeF_left
              (mem_subtree_inner (by simpa [Elem.children] using hqmem)), hqbad, ?_⟩
            simp only [p2oChildren]
            rw [if_neg hm, herrA]
        · -- the unrecognized parent sits in the tail
          have hbr : (subtreeF cs').any (unrecognizedParentMatch sn) = true := by
            rw [subtreeF, List.any_append, Bool.or_eq_true] at hbad
            rcases hbad with hleft | hright
            · exfalso
              rw [subtree, List.any_cons, Bool.or_eq_true] at hleft
              rcases hleft with h1 | h2
              · exact hself h1
              · exact hbc2 h2
            · exact hright
          obtain ⟨q, hqmem, hqbad, herrB⟩ :=
            p2oChildren_unrecognized_fails sn org cs' hbr hcntR hsepR
          rw [Bool.not_eq_true] at hbc2
          by_cases hm : hasMatchingPerson sn (Elem.node t a x ccs) = true
          · have hrect : recognizedParentTag t = true := by
              rw [Bool.not_eq_true] at hself
              unfold unrecognizedParentMatch at hself
              rw [hm] at hself
              simpa [Elem.tag] using hself
            by_cases ht1 : (decide (t = cmdTag "contactPerson") ||
                decide (t = cmdTag "metadataCreator")) = true
            · obtain ⟨⟨c2, b1⟩, hA⟩ := p2oElem_no_unrecognized sn org (Elem.node t a x ccs)
                (by simpa [Elem.children] using hbc2)
                (by simpa [Elem.children] using hcntInner)
                (by simpa [Elem.children] using hsepInner)
              refine ⟨q, mem_subtreeF_right hqmem, hqbad, ?_⟩
              simp only [p2oChildren]
              rw [if_pos hm, if_pos ht1, hA]
              dsimp only
              rw [herrB]
            · have hinnerNoPM :
                  (subtreeF ccs).all (fun q2 => !(hasMatchingPerson sn q2)) = true := by
                unfold nestFreePred at hnfC
                rw [hm] at hnfC
                simpa [Elem.children] using hnfC
              have hscan := scanDetached_no_parent_match sn org ccs 0 hinnerNoPM
                (by
                  unfold atMostOneMatchPred at hcntSelf
                  simpa [Elem.children] using hcntSelf)
              have hor : (decide (t = cmdTag "licensorPerson") ||
                  decide (t = cmdTag "distributionRightsHolderPerson")) = true := by
                have hd1 : (decide (t = cmdTag "contactPerson") ||
                    decide (t = cmdTag "metadataCreator")) = false := by
                  revert ht1
                  cases decide (t = cmdTag "contactPerson") ||
                    decide (t = cmdTag "metadataCreator") <;> simp
                simp only [Bool.or_eq_false_iff] at hd1
                unfold recognizedParentTag at hrect
                rw [hd1.1, hd1.2] at hrect
                simpa using hrect
              by_cases ht2 : t = cmdTag "distributionRightsHolderPerson"
              · refine ⟨q, mem_subtreeF_right hqmem, hqbad, ?_⟩
                simp only [p2oChildren]
                rw [if_pos hm, if_neg ht1, if_pos ht2, hscan]
                dsimp only
                rw [herrB]
              · have ht3 : t = cmdTag "licensorPerson" := by
                  rw [decide_eq_false ht2, Bool.or_false] at hor
                  exact of_decide_eq_true hor
                refine ⟨q, mem_subtreeF_right hqmem, hqbad, ?_⟩
                simp only [p2oChildren]
                rw [if_pos hm, if_neg ht1, if_neg ht2, if_pos ht3, hscan]
                dsimp only
                rw [herrB]
          · obtain ⟨⟨c2, b1⟩, hA⟩ := p2oElem_no_unrecognized sn org (Elem.node t a x ccs)
              (by simpa [Elem.children] using hbc2)
              (by simpa [Elem.children] using hcntInner)
              (by simpa [Elem.children] using hsepInner)
            refine ⟨q, mem_subtreeF_right hqmem, hqbad, ?_⟩
            simp only [p2oChildren]
            rw [if_neg hm, hA]
            dsimp only
            rw [herrB]
end

/-- Claim C6 (confirmed): when some personInfo with the configured surname
sits under a parent whose tag is none of contactPerson, metadataCreator,
licensorPerson or distributionRightsHolderPerson, the rewriting modifier fails
with a ValueError naming an offending parent tag instead of silently skipping
the match. (Stated for records whose root tag is itself unrecognized, as the
OAI envelope always is, with at most one matching child per element and no
nested parents of matches, which rules out the unrelated detached-parent
AttributeError of the source.) -/
theorem personToOrganization_fails_on_unrecognized (sn : String) (org : Elem) (r : Elem)
    (hbad : (subtree r).any (unrecognizedParentMatch sn) = true)
    (hcnt : atMostOneMatchEach sn r = true)
    (hsep : noNestedParentMatch sn r = true)
    (hroot : recognizedParentTag r.tag = false) :
    ∃ q, q ∈ subtree r ∧ unrecognizedParentMatch sn q = true ∧
      personToOrganizationModify sn org r =
        Except.error (PyErr.valueError (unexpectedPersonMsg q.tag)) := by
  cases r with
  | node t a x cs =>
    unfold atMostOneMatchEach at hcnt
    unfold noNestedParentMatch at hsep
    rw [subtree, List.all_cons, Bool.and_eq_true] at hcnt
    obtain ⟨hcntSelf, hcntInner⟩ := hcnt
    rw [subtree, List.all_cons, Bool.and_eq_true] at hsep
    obtain ⟨hnfR, hsepInner⟩ := hsep
    simp only [Elem.tag] at hroot
    unfold recognizedParentTag at hroot
    simp only [Bool.or_eq_false_iff] at hroot
    obtain ⟨⟨⟨hd1, hd2⟩, hd3⟩, hd4⟩ := hroot
    have ht1n : ¬((decide (t = cmdTag "contactPerson") ||
        decide (t = cmdTag "metadataCreator")) = true) := by
      rw [hd1, hd2]; simp
    have ht2n : ¬((decide (t = cmdTag "distributionRightsHolderPerson") ||
        decide (t = cmdTag "licensorPerson")) = true) := by
      rw [hd4, hd3]; simp
    by_cases hm : hasMatchingPerson sn (Elem.node t a x cs) = true
    · refine ⟨Elem.node t a x cs, self_mem_subtree _, ?_, ?_⟩
      · unfold unrecognizedParentMatch recognizedParentTag
        rw [hm]
        simp [Elem.tag, hd1, hd2, hd3, hd4]
      · unfold personToOrganizationModify
        simp only [Elem.tag]
        rw [if_pos hm, if_neg ht1n, if_neg ht2n]
    · rw [Bool.not_eq_true] at hm
      have hbadInner : (subtreeF cs).any (unrecognizedParentMatch sn) = true := by
        rw [subtree, List.any_cons, Bool.or_eq_true] at hbad
        rcases hbad with hb1 | hb2
        · exfalso
          have := unrecognizedParentMatch_hasMatching hb1
          rw [hm] at this
          simp at this
        · exact hb2
      obtain ⟨q, hqmem, hqbad, herr⟩ := p2oElem_unrecognized_fails sn org
        (Elem.node t a x cs)
        (by simpa [Elem.children] using hbadInner)
        (by simpa [Elem.children] using hcntInner)
        (by simpa [Elem.children] using hsepInner)
      refine ⟨q, mem_subtree_inner (by simpa [Elem.children] using hqmem), hqbad, ?_⟩
      unfold personToOrganizationModify
      have hmn : ¬(hasMatchingPerson sn (Elem.node t a x cs) = true) := by
        rw [hm]; simp
      rw [if_neg hmn, herr]

/-- A record holding the target surname under a resourceCreatorPerson parent,
a context the rewriting modifier has no rule for. -/
def scenarioUnrecognizedRecord : Elem :=
  sampleRecord "urn:nbn:fi:lb-3" [
    .node (cmdTag "resourceCreatorPerson") [] "" [
      .node (cmdTag "role") [] "resourceCreator" [],
      .node (cmdTag "personInfo") [] "" [
        .node (cmdTag "surname") [] "FIN-CLARIN" []]]]

/-- Witness for claim C6: an unrecognized resourceCreatorPerson parent makes
the modifier fail with the message naming that tag. -/
theorem personToOrganization_fails_on_unrecognized_witness :
    (∃ q, q ∈ subtree scenarioUnrecognizedRecord ∧
      unrecognizedParentMatch "FIN-CLARIN" q = true ∧
      personToOrganizationModify "FIN-CLARIN" finclarinOrganizationInfo
          scenarioUnrecognizedRecord =
        Except.error (PyErr.valueError (unexpectedPersonMsg q.tag))) ∧
    personToOrganizationModify "FIN-CLARIN" finclarinOrganizationInfo
        scenarioUnrecognizedRecord =
      Except.error (PyErr.valueError
        (unexpectedPersonMsg (cmdTag "resourceCreatorPerson"))) :=
  ⟨personToOrganization_fails_on_unrecognized "FIN-CLARIN" finclarinOrganizationInfo
      scenarioUnrecognizedRecord (by decide) (by decide) (by decide) (by decide),
    rfl⟩

/- Affiliation enrichment (AddOrganizationForPersonModifier). -/

/-- The xpath match predicate of AddOrganizationForPersonModifier: a
personInfo with exactly matching surname and givenName children and without a
namespace-qualified affiliation child. -/
def personNeedsAffiliation (firstName surname : String) (e : Elem) : Bool :=
  e.tag = cmdTag "personInfo" &&
    e.children.any (fun c => c.tag = cmdTag "surname" && c.text = surname) &&
    e.children.any (fun c => c.tag = cmdTag "givenName" && c.text = firstName) &&
    !(e.children.any (fun c => c.tag = cmdTag "affiliation"))

/-- The affiliation wrapper parsed from the template of
AddOrganizationForPersonModifier; the template string has no xmlns, so the
wrapper and its role child are unqualified. -/
def newAffiliation (org : Elem) : Elem :=
  .node "affiliation" [] "" [.node "role" [] "affiliation" [], org]

mutual
/-- Append the configured affiliation to every personInfo matched by the
snapshot predicate, anywhere in the subtree. -/
def aopElem (firstName surname : String) (org : Elem) : Elem → Elem × Bool
  | .node t a x cs =>
    let rec1 := aopList firstName surname org cs
    if personNeedsAffiliation firstName surname (Elem.node t a x cs) then
      (Elem.node t a x (rec1.1 ++ [newAffiliation org]), true)
    else (Elem.node t a x rec1.1, rec1.2)

def aopList (firstName surname : String) (org : Elem) : List Elem → List Elem × Bool
  | [] => ([], false)
  | c :: cs =>
    let rc := aopElem firstName surname org c
    let rr := aopList firstName surname org cs
    (rc.1 :: rr.1, rc.2 || rr.2)
end

/-- Embedding of AddOrganizationForPersonModifier.modify; the xpath matches
strict descendants of the record root. -/
def addOrganizationForPersonModify (firstName surname : String) (org : Elem)
    (r : Elem) : Elem × Bool :=
  match r with
  | .node t a x cs =>
    match aopList firstName surname org cs with
    | (cs2, b) => (indent (Elem.node t a x cs2), b)

/-- An organizationInfo template for the affiliation configuration. -/
def affiliationOrg : Elem :=
  .node "organizationInfo" [] "" [
    .node "organizationName" [("xml:lang", "en")] "Test University" [],
    .node "communicationInfo" [] "" [.node "email" [] "clinic@example.org" []]]

/-- A record holding the configured person with no affiliation yet. -/
def affiliationRecord : Elem :=
  sampleRecord "urn:nbn:fi:lb-4" [
    .node (cmdTag "contactPerson") [] "" [
      .node (cmdTag "personInfo") [] "" [
        .node (cmdTag "surname") [] "Kielipankki" [],
        .node (cmdTag "givenName") [] "Kielo" []]]]

/-- The same person already carrying a namespace-qualified affiliation. -/
def affiliationRecordQualified : Elem :=
  sampleRecord "urn:nbn:fi:lb-4" [
    .node (cmdTag "contactPerson") [] "" [
      .node (cmdTag "personInfo") [] "" [
        .node (cmdTag "surname") [] "Kielipankki" [],
        .node (cmdTag "givenName") [] "Kielo" [],
        .node (cmdTag "affiliation") [] "" [
          .node (cmdTag "role") [] "affiliation" []]]]]

/-- Claim C7 (code bug): the pre-existence check protects only persons whose
affiliation child is namespace-qualified (third and fourth conjuncts), but the
affiliation the modifier itself inserts is parsed from a template without
xmlns, so a person affiliated by an earlier application still matches the
xpath and receives a second affiliation wrapper on the next application. -/
theorem addOrganizationForPerson_reinserts_affiliation :
    (addOrganizationForPersonModify "Kielo" "Kielipankki" affiliationOrg
      affiliationRecord).2 = true ∧
    ((subtree (addOrganizationForPersonModify "Kielo" "Kielipankki" affiliationOrg
      affiliationRecord).1).filter (fun e => e.tag = "affiliation")).length = 1 ∧
    (addOrganizationForPersonModify "Kielo" "Kielipankki" affiliationOrg
      (addOrganizationForPersonModify "Kielo" "Kielipankki" affiliationOrg
        affiliationRecord).1).2 = true ∧
    ((subtree (addOrganizationForPersonModify "Kielo" "Kielipankki" affiliationOrg
      (addOrganizationForPersonModify "Kielo" "Kielipankki" affiliationOrg
        affiliationRecord).1).1).filter (fun e => e.tag = "affiliation")).length = 2 ∧
    addOrganizationForPersonModify "Kielo" "Kielipankki" affiliationOrg
      affiliationRecordQualified = (affiliationRecordQualified, false) := by
  exact ⟨rfl, rfl, rfl, rfl, rfl⟩

/- Multi-lingual creator inference (AddCreatorFromJsonModifier). -/

/-- One entry of the creator dictionary: short name, Finnish author string and
English author string. -/
structure CreatorEntry where
  lyhenne : String
  tekija : String
  author : String

/-- Python dictionary lookup over the creator dictionary. -/
def lookupCreator (ds : List (String × CreatorEntry)) (k : String) : Option CreatorEntry :=
  (ds.find? (fun q => q.1 = k)).map (fun q => q.2)

/-- Whether the string opens with a curly brace, the organization marker. -/
def startsWithBrace (s : String) : Bool :=
  match s.toList with
  | [] => false
  | c :: _ => c = '\x7b'

/-- The xpath predicate of the organization search: an organizationInfo with an
organizationName child in English equal to en or in Finnish equal to fi. -/
def organizationNameCondition (en fi : String) (e : Elem) : Bool :=
  e.tag = cmdTag "organizationInfo" &&
    (e.children.any (fun c => c.tag = cmdTag "organizationName" &&
        c.attr "xml:lang" = some "en" && c.text = en) ||
     e.children.any (fun c => c.tag = cmdTag "organizationName" &&
        c.attr "xml:lang" = some "fi" && c.text = fi))

/-- The xpath predicate of the person search: a personInfo with givenName and
surname children equal to the split name. -/
def personNameCondition (firstName lastName : String) (e : Elem) : Bool :=
  e.tag = cmdTag "personInfo" &&
    e.children.any (fun c => c.tag = cmdTag "givenName" && c.text = firstName) &&
    e.children.any (fun c => c.tag = cmdTag "surname" && c.text = lastName)

/-- Embedding of AddCreatorFromJsonModifier._organization_element: require a
curly brace on either variant, strip braces, and wrap a copy of the first
pre-existing organizationInfo (in document order) whose name matches either
language; none when no such organization exists. -/
def organizationElement (r : Elem) (authorEn authorFi : String) : Option Elem :=
  if !(startsWithBrace authorEn) && !(startsWithBrace authorFi) then none
  else
    match (descendants r).filter (organizationNameCondition
        (pyStripBraces authorEn) (pyStripBraces authorFi)) with
    | [] => none
    | o :: _ =>
      some (Elem.node (cmdTag "resourceCreatorOrganization") [] "" [
        Elem.node (cmdTag "role") [] "resourceCreator" [], o])

/-- Embedding of AddCreatorFromJsonModifier._person_element: reject strings
holding a curly brace, require the stripped variants to be identical or one of
them empty, split the resolved variant on whitespace into exactly two tokens,
and wrap a copy of the first pre-existing personInfo (in document order)
matching that (givenName, surname); none on any failure. -/
def personElement (r : Elem) (authorEn authorFi : String) : Option Elem :=
  if authorEn.toList.contains '\x7b' || authorFi.toList.contains '\x7b' then none
  else
    match
      (if pyStrip authorEn = pyStrip authorFi then some (pySplitWs (pyStrip authorEn))
       else if pyStrip authorEn = "" then some (pySplitWs (pyStrip authorFi))
       else if pyStrip authorFi = "" then some (pySplitWs (pyStrip authorEn))
       else none) with
    | some [firstName, lastName] =>
      match (descendants r).filter (personNameCondition firstName lastName) with
      | [] => none
      | q :: _ =>
        some (Elem.node (cmdTag "resourceCreatorPerson") [] "" [
          Elem.node (cmdTag "role") [] "resourceCreator" [], q])
    | _ => none

/-- The author-pair loop of AddCreatorFromJsonModifier.modify: resolve the
aligned pairs in order, skipping doubly-empty ones; the first unresolvable
pair aborts the whole record. -/
def collectAuthors (r : Elem) : List (String × String) → Option (List Elem)
  | [] => some []
  | (en, fi) :: rest =>
    if en = "" && fi = "" then collectAuthors r rest
    else
      match organizationElement r en fi with
      | some o => (collectAuthors r rest).map (fun l => o :: l)
      | none =>
        match personElement r en fi with
        | some q => (collectAuthors r rest).map (fun l => q :: l)
        | none => none

/-- Embedding of AddCreatorFromJsonModifier.modify. The pre-existence check on
resourceCreationInfo only prints a diagnostic in the source and does not stop
the insertion, and this embedding mirrors that; a dictionary entry, which
always has its three fields populated, is modelled as always truthy. -/
def addCreatorFromJsonModify (creatorDicts : List (String × CreatorEntry)) (r : Elem) :
    Except PyErr (Elem × Bool) :=
  match firstOrIndexError (textNodes r mdSelfLinkPath) with
  | Except.error e => Except.error e
  | Except.ok identifier =>
    match lookupCreator creatorDicts identifier with
    | none => Except.ok (r, false)
    | some entry =>
      if (pySplit ';' entry.author).length ≠ (pySplit ';' entry.tekija).length then
        Except.ok (r, false)
      else
        match collectAuthors r ((pySplit ';' entry.author).zip (pySplit ';' entry.tekija)) with
        | none => Except.ok (r, false)
        | some [] => Except.ok (r, false)
        | some authorInfos =>
          match appendAtFirstDesc (fun e => e.tag = cmdTag "resourceInfo")
              (Elem.node (cmdTag "resourceCreationInfo") [] "" authorInfos) r with
          | some r2 => Except.ok (indent r2, true)
          | none => Except.error PyErr.indexError

/-- A creator dictionary with one person entry. -/
def creatorDictsSample : List (String × CreatorEntry) :=
  [("urn:nbn:fi:lb-5", ⟨"testcorpus", "Tiina Tutkija", "Tiina Tutkija"⟩)]

/-- A record carrying the referenced person as a pre-existing personInfo. -/
def creatorRecord : Elem :=
  sampleRecord "urn:nbn:fi:lb-5" [
    .node (cmdTag "contactPerson") [] "" [
      .node (cmdTag "personInfo") [] "" [
        .node (cmdTag "givenName") [] "Tiina" [],
        .node (cmdTag "surname") [] "Tutkija" []]]]

/-- Run the creator modifier again on the record produced by a previous run. -/
def creatorModifyAgain : Except PyErr (Elem × Bool) → Except PyErr (Elem × Bool)
  | Except.ok (r, _) => addCreatorFromJsonModify creatorDictsSample r
  | Except.error e => Except.error e

/-- Claim C3 (code bug): the pre-existence check on resourceCreationInfo does
not prevent a second insertion. The first application inserts one
resourceCreationInfo and returns true; applying the modifier again to the
corrected record emits the skip diagnostic but still appends a second
resourceCreationInfo and returns true. -/
theorem addCreatorFromJson_duplicates_on_second_run :
    resultFlag (addCreatorFromJsonModify creatorDictsSample creatorRecord) = some true ∧
    resultCountTag (cmdTag "resourceCreationInfo")
      (addCreatorFromJsonModify creatorDictsSample creatorRecord) = 1 ∧
    resultFlag (creatorModifyAgain
      (addCreatorFromJsonModify creatorDictsSample creatorRecord)) = some true ∧
    resultCountTag (cmdTag "resourceCreationInfo")
      (creatorModifyAgain
        (addCreatorFromJsonModify creatorDictsSample creatorRecord)) = 2 := by
  exact ⟨rfl, rfl, rfl, rfl⟩

/-- A pair list holding an unresolvable nonempty pair collapses to none. -/
theorem collectAuthors_none (r : Elem) (ps : List (String × String))
    (p : String × String) (hmem : p ∈ ps)
    (hne : ¬(p.1 = "" ∧ p.2 = ""))
    (horg : organizationElement r p.1 p.2 = none)
    (hper : personElement r p.1 p.2 = none) :
    collectAuthors r ps = none := by
  induction ps with
  | nil => cases hmem
  | cons q rest ih =>
    obtain ⟨en, fi⟩ := q
    rcases List.mem_cons.mp hmem with heq | hmem2
    · subst heq
      simp only at hne horg hper
      have hneb : ¬((en = "" && fi = "") = true) := by
        intro hcontra
        rw [Bool.and_eq_true] at hcontra
        exact hne ⟨of_decide_eq_true hcontra.1, of_decide_eq_true hcontra.2⟩
      unfold collectAuthors
      rw [if_neg hneb, horg, hper]
    · unfold collectAuthors
      by_cases hemp : (en = "" && fi = "") = true
      · rw [if_pos hemp]
        exact ih hmem2
      · rw [if_neg hemp]
        cases ho : organizationElement r en fi with
        | some o => rw [ih hmem2]; rfl
        | none =>
          cases hq : personElement r en fi with
          | some q2 => rw [ih hmem2]; rfl
          | none => rfl

/-- Claim C2 (confirmed): for a record with a creator-dictionary entry, if the
two author strings split on the semicolon into differing counts, or some
aligned pair that is not doubly empty resolves to neither a pre-existing
organization nor a pre-existing person, the creator modifier returns false and
leaves the record unchanged: nothing is inserted. -/
theorem addCreatorFromJson_all_or_nothing (ds : List (String × CreatorEntry))
    (r : Elem) (identifier : String) (entry : CreatorEntry)
    (hid : firstOrIndexError (textNodes r mdSelfLinkPath) = Except.ok identifier)
    (hentry : lookupCreator ds identifier = some entry)
    (hfail : (pySplit ';' entry.author).length ≠ (pySplit ';' entry.tekija).length ∨
      ∃ p ∈ (pySplit ';' entry.author).zip (pySplit ';' entry.tekija),
        ¬(p.1 = "" ∧ p.2 = "") ∧ organizationElement r p.1 p.2 = none ∧
          personElement r p.1 p.2 = none) :
    addCreatorFromJsonModify ds r = Except.ok (r, false) := by
  unfold addCreatorFromJsonModify
  rw [hid]
  dsimp only
  rw [hentry]
  dsimp only
  rcases hfail with hlen | ⟨p, hmem, hne, horg, hper⟩
  · rw [if_pos hlen]
  · by_cases hlen : (pySplit ';' entry.author).length ≠ (pySplit ';' entry.tekija).length
    · rw [if_pos hlen]
    · rw [if_neg hlen]
      rw [collectAuthors_none r _ p hmem hne horg hper]

/-- A record and dictionary for the mismatched-counts case of claim C2. -/
def creatorMismatchDicts : List (String × CreatorEntry) :=
  [("urn:nbn:fi:lb-6", ⟨"mismatch", "Aino Autio", "Aino Autio; Bertta Byrokraatti"⟩)]

/-- The record the mismatched dictionary entry refers to. -/
def creatorMismatchRecord : Elem :=
  sampleRecord "urn:nbn:fi:lb-6" [
    .node (cmdTag "contactPerson") [] "" [
      .node (cmdTag "personInfo") [] "" [
        .node (cmdTag "givenName") [] "Aino" [],
        .node (cmdTag "surname") [] "Autio" []]]]

/-- Witness for claim C2: differing author counts leave the record unchanged
with a false result. -/
theorem addCreatorFromJson_all_or_nothing_witness :
    addCreatorFromJsonModify creatorMismatchDicts creatorMismatchRecord =
      Except.ok (creatorMismatchRecord, false) :=
  addCreatorFromJson_all_or_nothing creatorMismatchDicts creatorMismatchRecord
    "urn:nbn:fi:lb-6" ⟨"mismatch", "Aino Autio", "Aino Autio; Bertta Byrokraatti"⟩
    rfl rfl (Or.inl (by decide))

/- Pipeline orchestration (update_metadata in src/update_cmdi.py). -/

/-- The modifier loop of update_metadata: run every configured modifier in
order on the record, OR-ing each returned flag into the accumulator exactly as
the source writes modified = result or modified. -/
def runModifiers : List (Elem → Except PyErr (Elem × Bool)) → Elem → Bool →
    Except PyErr (Elem × Bool)
  | [], r, modified => Except.ok (r, modified)
  | m :: ms, r, modified =>
    match m r with
    | Except.error e => Except.error e
    | Except.ok (r2, result) => runModifiers ms r2 (result || modified)

/-- Sequential application of every modifier in list order, recording each
returned flag; later modifiers receive the record as left by earlier ones. -/
def runWithTrace : List (Elem → Except PyErr (Elem × Bool)) → Elem →
    Except PyErr (Elem × List Bool)
  | [], r => Except.ok (r, [])
  | m :: ms, r =>
    match m r with
    | Except.error e => Except.error e
    | Except.ok (r2, result) =>
      match runWithTrace ms r2 with
      | Except.error e => Except.error e
      | Except.ok (rf, flags) => Except.ok (rf, result :: flags)

/-- Claim C9 (confirmed): the pipeline loop equals threading the record
through every configured modifier in order, while the Changed flag is the
disjunction of all the flags the modifiers returned along the way (plus the
accumulator it started from, false in the source). In particular every later
modifier still runs on the record produced by the earlier ones, and the record
counts as modified exactly when at least one modifier returned true. -/
theorem runModifiers_is_or_fold (ms : List (Elem → Except PyErr (Elem × Bool)))
    (r : Elem) (acc : Bool) :
    runModifiers ms r acc =
      (runWithTrace ms r).map (fun q => (q.1, q.2.any (fun b => b) || acc)) := by
  induction ms generalizing r acc with
  | nil => rfl
  | cons m ms ih =>
    unfold runModifiers runWithTrace
    cases m r with
    | error e => rfl
    | ok p =>
      obtain ⟨r2, result⟩ := p
      dsimp only
      rw [ih r2 (result || acc)]
      cases runWithTrace ms r2 with
      | error e => rfl
      | ok q =>
        obtain ⟨rf, flags⟩ := q
        simp [Except.map, List.any_cons, Bool.or_assoc, Bool.or_comm, Bool.or_left_comm]

/-- Claim C10 (confirmed): when several pre-existing substructures match a
creator author segment, both resolvers duplicate the head of the filtered
document-order descendant list, i.e. the first match in document order, into
the newly constructed creator entry. -/
theorem creator_resolution_picks_first_match (r : Elem) (authorEn authorFi : String) :
    (∀ o os, (!(startsWithBrace authorEn) && !(startsWithBrace authorFi)) = false →
      (descendants r).filter (organizationNameCondition
        (pyStripBraces authorEn) (pyStripBraces authorFi)) = o :: os →
      organizationElement r authorEn authorFi =
        some (Elem.node (cmdTag "resourceCreatorOrganization") [] "" [
          Elem.node (cmdTag "role") [] "resourceCreator" [], o])) ∧
    (∀ firstName lastName q qs,
      (authorEn.toList.contains '\x7b' || authorFi.toList.contains '\x7b') = false →
      pyStrip authorEn = pyStrip authorFi →
      pySplitWs (pyStrip authorEn) = [firstName, lastName] →
      (descendants r).filter (personNameCondition firstName lastName) = q :: qs →
      personElement r authorEn authorFi =
        some (Elem.node (cmdTag "resourceCreatorPerson") [] "" [
          Elem.node (cmdTag "role") [] "resourceCreator" [], q])) := by
  constructor
  · intro o os hbrace hfilter
    unfold organizationElement
    rw [if_neg (by rw [hbrace]; simp), hfilter]
  · intro firstName lastName q qs hnob heqfi hsplit hfilter
    unfold personElement
    rw [if_neg (by rw [hnob]; simp), if_pos heqfi, hsplit]
    dsimp only
    rw [hfilter]

/-- A record with two organizationInfo entries and two personInfo entries that
all match the looked-up creator names. -/
def creatorDoubleRecord : Elem :=
  sampleRecord "urn:nbn:fi:lb-7" [
    .node (cmdTag "contactPerson") [] "" [
      .node (cmdTag "personInfo") [] "" [
        .node (cmdTag "givenName") [] "Tiina" [],
        .node (cmdTag "surname") [] "Tutkija" [],
        .node (cmdTag "affiliation") [] "" [
          .node (cmdTag "organizationInfo") [] "first" [
            .node (cmdTag "organizationName") [("xml:lang", "en")]
              "Joint Research Centre (JRC)" []]]]],
    .node (cmdTag "licensorPerson") [] "" [
      .node (cmdTag "personInfo") [] "second" [
        .node (cmdTag "givenName") [] "Tiina" [],
        .node (cmdTag "surname") [] "Tutkija" []]],
    .node (cmdTag "distributionInfo") [] "" [
      .node (cmdTag "licenceInfo") [] "" [
        .node (cmdTag "distributionRightsHolderOrganization") [] "" [
          .node (cmdTag "organizationInfo") [] "second" [
            .node (cmdTag "organizationName") [("xml:lang", "en")]
              "Joint Research Centre (JRC)" []]]]]]

/-- The document-order first matching organizationInfo of the double record. -/
def firstMatchingOrganization : Elem :=
  .node (cmdTag "organizationInfo") [] "first" [
    .node (cmdTag "organizationName") [("xml:lang", "en")]
      "Joint Research Centre (JRC)" []]

/-- The document-order first matching personInfo of the double record. -/
def firstMatchingPerson : Elem :=
  .node (cmdTag "personInfo") [] "" [
    .node (cmdTag "givenName") [] "Tiina" [],
    .node (cmdTag "surname") [] "Tutkija" [],
    .node (cmdTag "affiliation") [] "" [
      .node (cmdTag "organizationInfo") [] "first" [
        .node (cmdTag "organizationName") [("xml:lang", "en")]
          "Joint Research Centre (JRC)" []]]]

/-- Witness for claim C10: with two matching organizations and two matching
persons present, the constructed creator entries wrap the document-order first
ones. -/
theorem creator_resolution_picks_first_match_witness :
    organizationElement creatorDoubleRecord
        "\x7bJoint Research Centre (JRC)\x7d" "\x7bJoint Research Centre (JRC)\x7d" =
      some (Elem.node (cmdTag "resourceCreatorOrganization") [] "" [
        Elem.node (cmdTag "role") [] "resourceCreator" [],
        firstMatchingOrganization]) ∧
    personElement creatorDoubleRecord "Tiina Tutkija" "Tiina Tutkija" =
      some (Elem.node (cmdTag "resourceCreatorPerson") [] "" [
        Elem.node (cmdTag "role") [] "resourceCreator" [],
        firstMatchingPerson]) := by
  constructor
  · exact (creator_resolution_picks_first_match creatorDoubleRecord
      "\x7bJoint Research Centre (JRC)\x7d" "\x7bJoint Research Centre (JRC)\x7d").1
      firstMatchingOrganization _ (by rfl) (by rfl)
  · exact (creator_resolution_picks_first_match creatorDoubleRecord
      "Tiina Tutkija" "Tiina Tutkija").2 "Tiina" "Tutkija"
      firstMatchingPerson _ (by rfl) (by rfl) (by rfl) (by rfl)
